import Mathlib

/-!
Shallow embedding of the `dmsql` dialect adapter (`dialect_dmsql.go`) of the
gorm fork, together with theorems settling the frozen claims about it.

Definitions are translated from the Go source.  Helpers that the adapter
calls but that live outside the file under verification (the shared
`commonDialect` helpers, the database handle, the standard-library SHA-1)
are modelled from the specification; each such definition's doc comment
starts with `Modelled from the spec:`.
-/

namespace Dmsql

/-- Runtime kind of a mapped field's value, the discriminant of the
`switch dataValue.Kind()` in `DataTypeOf`.  `StructTime` is a struct kind
whose dynamic value is `time.Time`, `StructOther` any other struct kind;
`ByteSlice` is any remaining kind for which `IsByteArrayOrSlice` holds, and
`Other` any remaining kind for which it does not. -/
inductive Kind where
  | Bool | Int8 | Int | Int16 | Int32 | Uint8 | Uint | Uint16 | Uint32 | Uintptr
  | Int64 | Uint64 | Float32 | Float64 | String | StructTime | StructOther
  | ByteSlice | Other
deriving DecidableEq

/-- The field descriptor (`*StructField`) as the dialect sees it: name, the
runtime value's type name and kind, the primary-key flag, the tag-settings
mapping, and the three values the shared parsing helper extracts besides the
kind — explicit SQL type (empty string when absent), declared size, and the
additional type modifier string. -/
structure StructField where
  Name : String
  TypeName : String
  Kind : Kind
  IsPrimaryKey : Bool
  Size : Int
  TagSettings : List (String × String)
  SqlTypeOverride : String
  AdditionalType : String
deriving DecidableEq

/-- Lookup in the tag-settings mapping (`TagSettingsGet`). -/
def tagGet : List (String × String) → String → Option String
  | [], _ => none
  | (k, v) :: rest, key => if k = key then some v else tagGet rest key

/-- Removal from the tag-settings mapping (`TagSettingsDelete`). -/
def tagDelete : List (String × String) → String → List (String × String)
  | [], _ => []
  | (k, v) :: rest, key =>
    if k = key then tagDelete rest key else (k, v) :: tagDelete rest key

/-- Update of the tag-settings mapping (`TagSettingsSet`). -/
def tagSet (ts : List (String × String)) (key value : String) :
    List (String × String) :=
  (key, value) :: tagDelete ts key

/-- Modelled from the spec: `ParseFieldStructForDialect` (a shared helper of
the host framework, not part of this file) extracts the field's runtime
value (here its kind), any explicit SQL type override, the declared size,
and the additional type modifiers. -/
def ParseFieldStructForDialect (field : StructField) :
    Kind × String × Int × String :=
  (field.Kind, field.SqlTypeOverride, field.Size, field.AdditionalType)

/-- Go `strings.ToLower` restricted to its ASCII action, character by
character. -/
def strToLower (s : String) : String := String.mk (s.toList.map Char.toLower)

/-- Modelled from the spec: the base dialect's shared auto-increment
eligibility rule (`commonDialect.fieldCanAutoIncrement`, not part of this
file, and per the spec "not redefined here"): a field qualifies when its
AUTO_INCREMENT tag setting is present with a value other than `false`
(case-insensitively), and otherwise exactly when it is the primary key. -/
def fieldCanAutoIncrement (field : StructField) : Bool :=
  match tagGet field.TagSettings "AUTO_INCREMENT" with
  | some value => !(strToLower value = "false")
  | none => field.IsPrimaryKey

/-- Step of `DataTypeOf` enforcing the dialect invariant: if the field has
an AUTO_INCREMENT tag setting but neither an INDEX tag setting nor the
primary-key flag, the AUTO_INCREMENT setting is deleted. -/
def stripAutoIncrement (field : StructField) : StructField :=
  match tagGet field.TagSettings "AUTO_INCREMENT" with
  | some _ =>
    if (tagGet field.TagSettings "INDEX").isNone && !field.IsPrimaryKey then
      { field with TagSettings := tagDelete field.TagSettings "AUTO_INCREMENT" }
    else field
  | none => field

/-- Mutation performed by the auto-increment branches of the kind switch:
`field.TagSettingsSet("AUTO_INCREMENT", "AUTO_INCREMENT")`. -/
def setAutoIncrement (field : StructField) : StructField :=
  { field with TagSettings := tagSet field.TagSettings "AUTO_INCREMENT" "AUTO_INCREMENT" }

/-- The kind switch of `DataTypeOf` (lines 43–117 of the source): from the
runtime kind, produce the inferred SQL type string (empty when the kind
yields nothing) together with the possibly mutated field. -/
def inferSqlType (field : StructField) : String × StructField :=
  match field.Kind with
  | .Bool => ("bit", field)
  | .Int8 =>
    if fieldCanAutoIncrement field then ("tinyint AUTO_INCREMENT", setAutoIncrement field)
    else ("tinyint", field)
  | .Int | .Int16 | .Int32 =>
    if fieldCanAutoIncrement field then ("int AUTO_INCREMENT", setAutoIncrement field)
    else ("int", field)
  | .Uint8 =>
    if fieldCanAutoIncrement field then ("tinyint unsigned AUTO_INCREMENT", setAutoIncrement field)
    else ("tinyint unsigned", field)
  | .Uint | .Uint16 | .Uint32 | .Uintptr =>
    if fieldCanAutoIncrement field then ("int unsigned AUTO_INCREMENT", setAutoIncrement field)
    else ("int unsigned", field)
  | .Int64 =>
    if fieldCanAutoIncrement field then ("bigint AUTO_INCREMENT", setAutoIncrement field)
    else ("bigint", field)
  | .Uint64 =>
    if fieldCanAutoIncrement field then ("bigint unsigned AUTO_INCREMENT", setAutoIncrement field)
    else ("bigint unsigned", field)
  | .Float32 | .Float64 => ("double", field)
  | .String =>
    if 0 < field.Size ∧ field.Size < 65532 then
      ("varchar(" ++ toString field.Size ++ ")", field)
    else ("longtext", field)
  | .StructTime =>
    let precision :=
      match tagGet field.TagSettings "PRECISION" with
      | some p => "(" ++ p ++ ")"
      | none => ""
    if (tagGet field.TagSettings "NOT NULL").isSome || field.IsPrimaryKey then
      ("DATETIME" ++ precision, field)
    else ("DATETIME" ++ precision ++ " NULL", field)
  | .StructOther => ("", field)
  | .ByteSlice =>
    if 0 < field.Size ∧ field.Size < 65532 then
      ("varbinary(" ++ toString field.Size ++ ")", field)
    else ("longblob", field)
  | .Other => ("", field)

/-- Rendering of `reflect.Kind.String()` for the kinds of the model, used
only inside the fatal error message.  `ByteSlice` stands for the slice
kinds and `Other` collectively for the remaining kinds. -/
def kindName : Kind → String
  | .Bool => "bool" | .Int8 => "int8" | .Int => "int" | .Int16 => "int16"
  | .Int32 => "int32" | .Uint8 => "uint8" | .Uint => "uint" | .Uint16 => "uint16"
  | .Uint32 => "uint32" | .Uintptr => "uintptr" | .Int64 => "int64"
  | .Uint64 => "uint64" | .Float32 => "float32" | .Float64 => "float64"
  | .String => "string" | .StructTime => "struct" | .StructOther => "struct"
  | .ByteSlice => "slice" | .Other => "invalid"

/-- Signed and unsigned integer kinds, the kinds whose switch cases carry an
auto-increment variant. -/
def isIntegerKind : Kind → Bool
  | .Int8 | .Int | .Int16 | .Int32 | .Uint8 | .Uint | .Uint16 | .Uint32
  | .Uintptr | .Int64 | .Uint64 => true
  | _ => false

/-- Go `strings.TrimSpace`: remove leading and trailing whitespace. -/
def trimSpace (s : String) : String :=
  String.mk (((s.toList.dropWhile Char.isWhitespace).reverse.dropWhile Char.isWhitespace).reverse)

/-- Outcome of a call that may terminate the process: a normal return with a
string, or an unrecoverable fatal error carrying the message. -/
inductive DMResult where
  | ok (s : String)
  | panic (msg : String)
deriving DecidableEq

/-- The adapter's `DataTypeOf`: returns the outcome together with the field
as the call leaves it (the Go method mutates the field through its
pointer). -/
def DataTypeOf (field : StructField) : DMResult × StructField :=
  match ParseFieldStructForDialect field with
  | (dataKind, sqlType0, _size, additionalType) =>
    let field1 := stripAutoIncrement field
    let r := if sqlType0 = "" then inferSqlType field1 else (sqlType0, field1)
    if r.1 = "" then
      (DMResult.panic ("invalid sql type " ++ field.TypeName ++ " (" ++
        kindName dataKind ++ ") in field " ++ field.Name ++ " for dmsql"), r.2)
    else if trimSpace additionalType = "" then
      (DMResult.ok r.1, r.2)
    else
      (DMResult.ok (r.1 ++ " " ++ additionalType), r.2)

/-- Modelled from the spec: a dynamic (`interface\x7b\x7d`-typed) value passed for
limit or offset — either integer-convertible with the given value, or not. -/
inductive IfaceVal where
  | intVal (n : Int)
  | nonInt (s : String)
deriving DecidableEq

/-- Modelled from the spec: the shared `parseInt` helper (not part of this
file) converts a dynamic value to an integer, failing with a parse error
when the value is not integer-convertible. -/
def parseInt : IfaceVal → Except String Int
  | .intVal n => Except.ok n
  | .nonInt s => Except.error ("parsing " ++ s ++ ": invalid syntax")

/-- The adapter's `LimitAndOffsetSQL`: build the trailing paging fragment,
`none` standing for an absent (`nil`) limit or offset. -/
def LimitAndOffsetSQL (limit offset : Option IfaceVal) : Except String String :=
  match limit with
  | none => Except.ok ""
  | some l =>
    match parseInt l with
    | Except.error e => Except.error e
    | Except.ok parsedLimit =>
      if 0 ≤ parsedLimit then
        let sql := " LIMIT " ++ toString parsedLimit
        match offset with
        | none => Except.ok sql
        | some o =>
          match parseInt o with
          | Except.error e => Except.error e
          | Except.ok parsedOffset =>
            if 0 ≤ parsedOffset then Except.ok (sql ++ " OFFSET " ++ toString parsedOffset)
            else Except.ok sql
      else Except.ok ""

/-- Modelled from the spec: the synchronous data-access handle.  A catalog
count query (query text plus bound arguments) either fails or yields a
count. -/
structure DB where
  queryCount : String → List String → Except String Int

/-- Scan of a count query's single row into an `int` variable: on error the
error is discarded and the variable keeps its zero value. -/
def scanCount (db : DB) (q : String) (args : List String) : Int :=
  match db.queryCount q args with
  | Except.ok c => c
  | Except.error _ => 0

/-- The adapter's `CurrentDatabase`: a hard-coded tablespace name. -/
def CurrentDatabase : String := "blockchain"

/-- Modelled from the spec: the shared `currentDatabaseAndTable` helper (not
part of this file) resolves the effective namespace/name pair — a name
containing a dot is split at its first dot, otherwise the dialect's
`CurrentDatabase` is used as the namespace. -/
def currentDatabaseAndTable (tableName : String) : String × String :=
  if tableName.toList.contains '.' then
    (String.mk (tableName.toList.takeWhile (fun c => !(c = '.'))),
     String.mk ((tableName.toList.dropWhile (fun c => !(c = '.'))).drop 1))
  else (CurrentDatabase, tableName)

/-- The adapter's `HasForeignKey`. -/
def HasForeignKey (db : DB) (tableName foreignKeyName : String) : Bool :=
  let t := (currentDatabaseAndTable tableName).2
  let count := scanCount db
    "SELECT count(*) FROM USER_CONSTRAINTS WHERE TABLE_NAME=? AND CONSTRAINT_NAME=? AND CONSTRAINT_TYPE='R'"
    [t, foreignKeyName]
  decide (0 < count)

/-- The adapter's `HasTable`. -/
def HasTable (db : DB) (tableName : String) : Bool :=
  let p := currentDatabaseAndTable tableName
  let count := scanCount db
    ("SELECT count(*) FROM USER_TABLES WHERE TABLESPACE = `" ++ p.1 ++
     "` AND TABLE_NAME = `" ++ p.2 ++ "` ") []
  decide (0 < count)

/-- The adapter's `HasIndex`. -/
def HasIndex (db : DB) (tableName indexName : String) : Bool :=
  let p := currentDatabaseAndTable tableName
  let count := scanCount db
    ("SELECT count(*) FROM USER_INDEXS WHERE TABLESPACE = `" ++ p.1 ++
     "` AND TABLE_NAME = `" ++ p.2 ++ "` AND INDEX_NAME = `" ++ indexName ++ "` ") []
  decide (0 < count)

/-- The adapter's `HasColumn`. -/
def HasColumn (db : DB) (tableName columnName : String) : Bool :=
  let t := (currentDatabaseAndTable tableName).2
  let count := scanCount db
    ("SELECT count(*) FROM USER_TAB_COLUMNS WHERE TABLE_NAME = `" ++ t ++
     "` AND COLUMN_NAME =`" ++ columnName ++ "` ") []
  decide (0 < count)

/-- Character class of `keyNameRegex` (`[a-zA-Z0-9]`, the characters a run
of which is kept as-is by the sanitizer). -/
def isKeyNameChar (c : Char) : Bool := c.isAlpha || c.isDigit

/-- Replacement of each maximal run of disallowed characters by a single
underscore; the `inRun` flag records that the previous character was part of
such a run. -/
def replaceRunsAux : Bool → List Char → List Char
  | _, [] => []
  | inRun, c :: cs =>
    if isKeyNameChar c then c :: replaceRunsAux false cs
    else if inRun then replaceRunsAux true cs
    else '_' :: replaceRunsAux true cs

/-- Modelled from the spec: `keyNameRegex.ReplaceAllString(s, "_")` with
`keyNameRegex = [^a-zA-Z0-9]+` (shared with the base dialect, not part of
this file) — every maximal run of disallowed characters becomes one
underscore. -/
def replaceRuns (s : String) : String := String.mk (replaceRunsAux false s.toList)

/-- Modelled from the spec: the base dialect's generic key-naming rule
(`commonDialect.BuildKeyName`, not part of this file): join the kind, the
table name and the field names with underscores and sanitize the result
with `keyNameRegex`. -/
def commonBuildKeyName (kind tableName : String) (fields : List String) : String :=
  replaceRuns (String.intercalate "_" (kind :: tableName :: fields))

/-- Reduction of a machine word modulo 2^32. -/
def w32 (x : Nat) : Nat := x % 4294967296

/-- Left rotation of a 32-bit word. -/
def rotl32 (x n : Nat) : Nat :=
  w32 ((w32 x <<< n) ||| (w32 x >>> (32 - n)))

/-- Big-endian byte rendering of a value on `n` bytes. -/
def beBytes (n v : Nat) : List Nat :=
  (List.range n).map (fun i => (v >>> (8 * (n - 1 - i))) % 256)

/-- Modelled from the spec: SHA-1 padding (the content hash is the standard
library's `crypto/sha1`, external to this repository; it is embedded here in
full from FIPS 180-1): append `0x80`, zeros up to 56 modulo 64, and the
64-bit big-endian bit length. -/
def sha1Pad (msg : List Nat) : List Nat :=
  msg ++ 128 :: (List.replicate ((119 - msg.length % 64) % 64) 0 ++ beBytes 8 (8 * msg.length))

/-- Split of a byte list into 64-byte blocks. -/
def chunk64 (l : List Nat) : List (List Nat) :=
  if h : l = [] then []
  else
    have : (l.drop 64).length < l.length := by
      rw [List.length_drop]
      have hl : 0 < l.length := List.length_pos.mpr h
      omega
    l.take 64 :: chunk64 (l.drop 64)
termination_by l.length

/-- The sixteen 32-bit big-endian words of one 64-byte block. -/
def blockWords (block : List Nat) : List Nat :=
  (List.range 16).map (fun i =>
    block.getD (4 * i) 0 * 16777216 + block.getD (4 * i + 1) 0 * 65536 +
    block.getD (4 * i + 2) 0 * 256 + block.getD (4 * i + 3) 0)

/-- Extension of the sixteen block words to the eighty schedule words. -/
def sha1Extend (ws : List Nat) : List Nat :=
  (List.range 64).foldl (fun acc _ =>
    let n := acc.length
    acc ++ [rotl32 ((acc.getD (n - 3) 0) ^^^ (acc.getD (n - 8) 0) ^^^
      (acc.getD (n - 14) 0) ^^^ (acc.getD (n - 16) 0)) 1]) ws

/-- Round function of SHA-1. -/
def sha1F (t b c d : Nat) : Nat :=
  if t < 20 then (b &&& c) ||| ((b ^^^ 4294967295) &&& d)
  else if t < 40 then b ^^^ c ^^^ d
  else if t < 60 then (b &&& c) ||| (b &&& d) ||| (c &&& d)
  else b ^^^ c ^^^ d

/-- Round constants of SHA-1. -/
def sha1K (t : Nat) : Nat :=
  if t < 20 then 1518500249
  else if t < 40 then 1859775393
  else if t < 60 then 2400959708
  else 3395469782

/-- One round of the SHA-1 compression function. -/
def sha1Step (ws : List Nat) (st : Nat × Nat × Nat × Nat × Nat) (t : Nat) :
    Nat × Nat × Nat × Nat × Nat :=
  match st with
  | (a, b, c, d, e) =>
    (w32 (rotl32 a 5 + sha1F t b c d + e + sha1K t + ws.getD t 0), a, rotl32 b 30, c, d)

/-- Processing of one 64-byte block into the running hash state. -/
def sha1Block (st : Nat × Nat × Nat × Nat × Nat) (block : List Nat) :
    Nat × Nat × Nat × Nat × Nat :=
  match st with
  | (h0, h1, h2, h3, h4) =>
    let ws := sha1Extend (blockWords block)
    match (List.range 80).foldl (sha1Step ws) (h0, h1, h2, h3, h4) with
    | (a, b, c, d, e) =>
      (w32 (h0 + a), w32 (h1 + b), w32 (h2 + c), w32 (h3 + d), w32 (h4 + e))

/-- The five words of the SHA-1 digest of a string's UTF-8 bytes. -/
def sha1Words (s : String) : Nat × Nat × Nat × Nat × Nat :=
  let msg := (String.toUTF8 s).toList.map (fun b => b.toNat)
  (chunk64 (sha1Pad msg)).foldl sha1Block
    (1732584193, 4023233417, 2562383102, 271733878, 3285377520)

/-- The twenty digest bytes of SHA-1 (`h.Sum(nil)`). -/
def sha1Bytes (s : String) : List Nat :=
  match sha1Words s with
  | (h0, h1, h2, h3, h4) =>
    beBytes 4 h0 ++ beBytes 4 h1 ++ beBytes 4 h2 ++ beBytes 4 h3 ++ beBytes 4 h4

/-- Lowercase hexadecimal digit character of a value below 16. -/
def hexChar (n : Nat) : Char :=
  if n < 10 then Char.ofNat (48 + n) else Char.ofNat (87 + n)

/-- Character list of the `%x` rendering of a byte list: two lowercase
hexadecimal digits per byte. -/
def bytesToHexAux : List Nat → List Char
  | [] => []
  | b :: bs => hexChar (b / 16) :: hexChar (b % 16) :: bytesToHexAux bs

/-- Go `fmt.Sprintf("%x", bs)` on a byte slice. -/
def bytesToHex (bs : List Nat) : String := String.mk (bytesToHexAux bs)

/-- The adapter's `BuildKeyName`: delegate to the base rule; keep the name
when it has at most 64 runes (Lean `String.length` counts characters, as
`utf8.RuneCountInString` counts runes), otherwise shorten it to the first 24
sanitized runes of the first field name followed by the hex SHA-1 digest of
the full name.  `none` models the out-of-bounds panic of `fields[0]` on an
empty field list. -/
def BuildKeyName (kind tableName : String) (fields : List String) : Option String :=
  let keyName := commonBuildKeyName kind tableName fields
  if keyName.length ≤ 64 then
    some keyName
  else
    match fields with
    | [] => none
    | f0 :: _ =>
      let bs := sha1Bytes keyName
      let destRunes := (replaceRuns f0).toList
      let destRunes := if 24 < destRunes.length then destRunes.take 24 else destRunes
      some (String.mk destRunes ++ bytesToHex bs)

/-- Matching of `dmsqlIndexRegex = ^(.+)\((\d+)\)$` against a string: the
name matches exactly when it ends in `)`, the maximal digit run before that
final parenthesis is nonempty and is preceded by `(`, and a nonempty stem
precedes that; the captures are the stem and the digit run (the digit group
is all-digit and followed by `)$`, so this run is the unique and greedy
decomposition the regex engine finds). -/
def dmsqlIndexMatch (s : String) : Option (List Char × List Char) :=
  if s.toList.reverse.head? = some ')' ∧
      ¬(s.toList.reverse.tail.takeWhile Char.isDigit) = [] ∧
      (s.toList.reverse.tail.dropWhile Char.isDigit).head? = some '(' ∧
      ¬(s.toList.reverse.tail.dropWhile Char.isDigit).tail = [] then
    some ((s.toList.reverse.tail.dropWhile Char.isDigit).tail.reverse,
      (s.toList.reverse.tail.takeWhile Char.isDigit).reverse)
  else none

/-- The adapter's `NormalizeIndexAndColumn`: split an index name of the form
`stem(digits)` into the bare stem and a column expression carrying the digit
group; otherwise return both inputs unchanged. -/
def NormalizeIndexAndColumn (indexName columnName : String) : String × String :=
  match dmsqlIndexMatch indexName with
  | none => (indexName, columnName)
  | some (stem, digits) =>
    (String.mk stem, columnName ++ "(" ++ String.mk digits ++ ")")

/-- Substring test: some index of `s` starts an occurrence of `pat`. -/
def strContains (s pat : String) : Bool :=
  (List.range (s.toList.length + 1)).any (fun i =>
    List.take pat.toList.length (List.drop i s.toList) == pat.toList)

/-- Suffix test: the last characters of `s` spell `suffix`. -/
def strEndsWith (s suffix : String) : Bool :=
  s.toList.reverse.take suffix.toList.length == suffix.toList.reverse

/-- Concrete field: explicit SQL type `AUTO_INCREMENT`, neither primary key
nor indexed. -/
def c1field : StructField :=
  { Name := "code", TypeName := "string", Kind := Kind.String, IsPrimaryKey := false,
    Size := 0, TagSettings := [], SqlTypeOverride := "AUTO_INCREMENT", AdditionalType := "" }

/-- Concrete field: plain `int` field that requested AUTO_INCREMENT but is
neither primary key nor indexed. -/
def w1field : StructField :=
  { Name := "age", TypeName := "int", Kind := Kind.Int, IsPrimaryKey := false,
    Size := 0, TagSettings := [("AUTO_INCREMENT", "AUTO_INCREMENT")],
    SqlTypeOverride := "", AdditionalType := "" }

/-- Concrete field: non-key `int` field that requested AUTO_INCREMENT and
also carries a NOT NULL modifier. -/
def c2field : StructField :=
  { Name := "num", TypeName := "int", Kind := Kind.Int, IsPrimaryKey := false,
    Size := 0, TagSettings := [("AUTO_INCREMENT", "AUTO_INCREMENT"), ("NOT NULL", "NOT NULL")],
    SqlTypeOverride := "", AdditionalType := "NOT NULL" }

/-- Concrete field: primary-key `uint` field with no tags. -/
def w2field : StructField :=
  { Name := "id", TypeName := "uint", Kind := Kind.Uint, IsPrimaryKey := true,
    Size := 0, TagSettings := [], SqlTypeOverride := "", AdditionalType := "" }

/-- Concrete field: string field of size 100 with a NOT NULL modifier. -/
def c3field : StructField :=
  { Name := "s", TypeName := "string", Kind := Kind.String, IsPrimaryKey := false,
    Size := 100, TagSettings := [("NOT NULL", "NOT NULL")],
    SqlTypeOverride := "", AdditionalType := "NOT NULL" }

/-- Concrete field: plain string field of size 100. -/
def w3field : StructField :=
  { Name := "name", TypeName := "string", Kind := Kind.String, IsPrimaryKey := false,
    Size := 100, TagSettings := [], SqlTypeOverride := "", AdditionalType := "" }

/-- Concrete field: a kind the switch does not cover and no explicit type. -/
def w5field : StructField :=
  { Name := "payload", TypeName := "chan int", Kind := Kind.Other, IsPrimaryKey := false,
    Size := 0, TagSettings := [], SqlTypeOverride := "", AdditionalType := "" }

/-- Concrete field: primary-key `int` field carrying an unrelated tag. -/
def w10field : StructField :=
  { Name := "n", TypeName := "int", Kind := Kind.Int, IsPrimaryKey := true,
    Size := 0, TagSettings := [("NOT NULL", "NOT NULL")],
    SqlTypeOverride := "", AdditionalType := "" }

/-- Concrete handle whose every catalog query yields the count 3. -/
def w8dbOk : DB := { queryCount := fun _ _ => Except.ok 3 }

/-- Concrete handle whose every catalog query fails. -/
def w8dbErr : DB := { queryCount := fun _ _ => Except.error "ORA-00942" }

theorem strToList_append (a b : String) : (a ++ b).toList = a.toList ++ b.toList :=
  String.data_append a b

theorem strContains_of_decomp (s pat : String) (x y : List Char)
    (h : s.toList = x ++ pat.toList ++ y) : strContains s pat = true := by
  unfold strContains
  rw [List.any_eq_true]
  refine ⟨x.length, List.mem_range.mpr ?_, ?_⟩
  · have hlen := congrArg List.length h
    simp only [List.length_append] at hlen
    omega
  · rw [h, List.append_assoc, List.drop_left, List.take_left]
    exact beq_self_eq_true _

theorem strContains_eq_false (s pat : String) (c : Char)
    (hc : c ∈ pat.toList) (hs : c ∉ s.toList) : strContains s pat = false := by
  rw [← Bool.not_eq_true]
  intro h
  unfold strContains at h
  rw [List.any_eq_true] at h
  obtain ⟨i, -, hpred⟩ := h
  have heq := eq_of_beq hpred
  rw [← heq] at hc
  exact hs (List.drop_subset i s.toList (List.take_subset _ _ hc))

theorem toDigitsCore_digit (fuel : Nat) :
    ∀ (n : Nat) (ds : List Char), (∀ c ∈ ds, c.isDigit = true) →
      ∀ c ∈ Nat.toDigitsCore 10 fuel n ds, c.isDigit = true := by
  have hdc : ∀ m, m < 10 → (Nat.digitChar m).isDigit = true := by decide
  induction fuel with
  | zero => intro n ds hds c hc; rw [Nat.toDigitsCore] at hc; exact hds c hc
  | succ fuel ih =>
    intro n ds hds c hc
    rw [Nat.toDigitsCore] at hc
    by_cases h10 : n / 10 = 0
    · rw [if_pos h10] at hc
      rcases List.mem_cons.mp hc with h | h
      · rw [h]; exact hdc _ (Nat.mod_lt _ (by omega))
      · exact hds c h
    · rw [if_neg h10] at hc
      refine ih (n / 10) _ ?_ c hc
      intro d hd
      rcases List.mem_cons.mp hd with h | h
      · rw [h]; exact hdc _ (Nat.mod_lt _ (by omega))
      · exact hds d h

theorem repr_digit (n : Nat) : ∀ c ∈ (Nat.repr n).toList, c.isDigit = true := by
  intro c hc
  have hrepr : (Nat.repr n).toList = Nat.toDigitsCore 10 (n + 1) n [] := rfl
  rw [hrepr] at hc
  exact toDigitsCore_digit (n + 1) n [] (by simp) c hc

theorem int_toString_digit (i : Int) (h : 0 < i) :
    ∀ c ∈ (toString i).toList, c.isDigit = true := by
  match i with
  | Int.ofNat m =>
    have he : toString (Int.ofNat m) = Nat.repr m := rfl
    rw [he]
    exact repr_digit m
  | Int.negSucc m => exact absurd h (by exact of_decide_eq_false rfl)

theorem tagGet_cons (hk hv k : String) (tl : List (String × String)) :
    tagGet ((hk, hv) :: tl) k = if hk = k then some hv else tagGet tl k := rfl

theorem tagDelete_cons (hk hv key : String) (tl : List (String × String)) :
    tagDelete ((hk, hv) :: tl) key =
      if hk = key then tagDelete tl key else (hk, hv) :: tagDelete tl key := rfl

theorem tagGet_tagDelete (ts : List (String × String)) (k key : String) :
    tagGet (tagDelete ts key) k = if k = key then none else tagGet ts k := by
  induction ts with
  | nil => simp [tagDelete, tagGet]
  | cons hd tl ih =>
    obtain ⟨hk, hv⟩ := hd
    rw [tagDelete_cons]
    by_cases h1 : hk = key
    · rw [if_pos h1, ih]
      by_cases h2 : k = key
      · rw [if_pos h2, if_pos h2]
      · rw [if_neg h2, if_neg h2, tagGet_cons,
          if_neg (show ¬hk = k from fun h => h2 (h ▸ h1))]
    · rw [if_neg h1, tagGet_cons, ih, tagGet_cons]
      by_cases h2 : hk = k
      · rw [if_pos h2, if_pos h2,
          if_neg (show ¬k = key from fun hkey => h1 (h2.trans hkey))]
      · rw [if_neg h2, if_neg h2]

theorem tagGet_tagSet (ts : List (String × String)) (k key v : String) :
    tagGet (tagSet ts key v) k = if k = key then some v else tagGet ts k := by
  unfold tagSet
  rw [tagGet_cons, tagGet_tagDelete]
  by_cases h : k = key
  · rw [if_pos h.symm, if_pos h]
  · rw [if_neg (fun hh => h hh.symm), if_neg h, if_neg h]

theorem stripAutoIncrement_eq (f : StructField) :
    stripAutoIncrement f = f ∨
    stripAutoIncrement f =
      { f with TagSettings := tagDelete f.TagSettings "AUTO_INCREMENT" } := by
  unfold stripAutoIncrement
  match tagGet f.TagSettings "AUTO_INCREMENT" with
  | some v =>
    by_cases h : (tagGet f.TagSettings "INDEX").isNone && !f.IsPrimaryKey
    · rw [if_pos h]; right; rfl
    · rw [if_neg h]; left; rfl
  | none => left; rfl

theorem inferSqlType_snd (f : StructField) :
    (inferSqlType f).2 = f ∨ (inferSqlType f).2 = setAutoIncrement f := by
  rcases hk : f.Kind <;> simp only [inferSqlType, hk] <;>
    first
      | (left; trivial)
      | (split <;> simp)

theorem dataTypeOf_snd (f : StructField) :
    (DataTypeOf f).2 =
      (if f.SqlTypeOverride = "" then (inferSqlType (stripAutoIncrement f)).2
       else stripAutoIncrement f) := by
  simp only [DataTypeOf, ParseFieldStructForDialect]
  split_ifs <;> rfl

theorem strip_ai_none (f : StructField) (hpk : f.IsPrimaryKey = false)
    (hidx : tagGet f.TagSettings "INDEX" = none) :
    tagGet (stripAutoIncrement f).TagSettings "AUTO_INCREMENT" = none := by
  unfold stripAutoIncrement
  rcases h : tagGet f.TagSettings "AUTO_INCREMENT" with _ | v
  · simp only [h]
  · simp [h, hidx, hpk, tagGet_tagDelete]

theorem strip_isPrimaryKey (f : StructField) :
    (stripAutoIncrement f).IsPrimaryKey = f.IsPrimaryKey := by
  rcases stripAutoIncrement_eq f with h | h <;> rw [h]

theorem strip_kind (f : StructField) : (stripAutoIncrement f).Kind = f.Kind := by
  rcases stripAutoIncrement_eq f with h | h <;> rw [h]

theorem strip_size (f : StructField) : (stripAutoIncrement f).Size = f.Size := by
  rcases stripAutoIncrement_eq f with h | h <;> rw [h]

theorem canAI_strip_false (f : StructField) (hpk : f.IsPrimaryKey = false)
    (hidx : tagGet f.TagSettings "INDEX" = none) :
    fieldCanAutoIncrement (stripAutoIncrement f) = false := by
  unfold fieldCanAutoIncrement
  rw [strip_ai_none f hpk hidx, strip_isPrimaryKey]
  exact hpk

theorem dataTypeOf_fst_eq (f : StructField) (hexp : f.SqlTypeOverride = "") :
    (DataTypeOf f).1 =
      (if (inferSqlType (stripAutoIncrement f)).1 = "" then
        DMResult.panic ("invalid sql type " ++ f.TypeName ++ " (" ++
          kindName f.Kind ++ ") in field " ++ f.Name ++ " for dmsql")
      else if trimSpace f.AdditionalType = "" then
        DMResult.ok (inferSqlType (stripAutoIncrement f)).1
      else DMResult.ok ((inferSqlType (stripAutoIncrement f)).1 ++ " " ++ f.AdditionalType)) := by
  simp only [DataTypeOf, ParseFieldStructForDialect, hexp]
  split_ifs <;> rfl

theorem dataTypeOf_fst_override (f : StructField) (hexp : ¬f.SqlTypeOverride = "") :
    (DataTypeOf f).1 =
      (if trimSpace f.AdditionalType = "" then DMResult.ok f.SqlTypeOverride
       else DMResult.ok (f.SqlTypeOverride ++ " " ++ f.AdditionalType)) := by
  simp only [DataTypeOf, ParseFieldStructForDialect, if_neg hexp]
  split_ifs <;> rfl

theorem frame_candidates (f g : StructField)
    (hg : g = stripAutoIncrement f ∨ g = setAutoIncrement (stripAutoIncrement f)) :
    (g.Name = f.Name ∧ g.TypeName = f.TypeName ∧ g.Kind = f.Kind ∧
     g.IsPrimaryKey = f.IsPrimaryKey ∧ g.Size = f.Size ∧
     g.SqlTypeOverride = f.SqlTypeOverride ∧ g.AdditionalType = f.AdditionalType) ∧
    (∀ k, ¬k = "AUTO_INCREMENT" → tagGet g.TagSettings k = tagGet f.TagSettings k) ∧
    (tagGet g.TagSettings "AUTO_INCREMENT" = tagGet f.TagSettings "AUTO_INCREMENT" ∨
     tagGet g.TagSettings "AUTO_INCREMENT" = none ∨
     tagGet g.TagSettings "AUTO_INCREMENT" = some "AUTO_INCREMENT") := by
  rcases stripAutoIncrement_eq f with h1 | h1 <;> rcases hg with hg | hg <;> rw [hg, h1]
  · exact ⟨⟨rfl, rfl, rfl, rfl, rfl, rfl, rfl⟩, fun k hk => rfl, Or.inl rfl⟩
  · refine ⟨by simp [setAutoIncrement], fun k hk => ?_, ?_⟩
    · show tagGet (tagSet f.TagSettings "AUTO_INCREMENT" "AUTO_INCREMENT") k =
        tagGet f.TagSettings k
      rw [tagGet_tagSet, if_neg hk]
    · right; right
      show tagGet (tagSet f.TagSettings "AUTO_INCREMENT" "AUTO_INCREMENT")
        "AUTO_INCREMENT" = some "AUTO_INCREMENT"
      rw [tagGet_tagSet, if_pos rfl]
  · refine ⟨by simp, fun k hk => ?_, ?_⟩
    · show tagGet (tagDelete f.TagSettings "AUTO_INCREMENT") k = tagGet f.TagSettings k
      rw [tagGet_tagDelete, if_neg hk]
    · right; left
      show tagGet (tagDelete f.TagSettings "AUTO_INCREMENT") "AUTO_INCREMENT" = none
      rw [tagGet_tagDelete, if_pos rfl]
  · refine ⟨by simp [setAutoIncrement], fun k hk => ?_, ?_⟩
    · show tagGet (tagSet (tagDelete f.TagSettings "AUTO_INCREMENT")
        "AUTO_INCREMENT" "AUTO_INCREMENT") k = tagGet f.TagSettings k
      rw [tagGet_tagSet, if_neg hk, tagGet_tagDelete, if_neg hk]
    · right; right
      show tagGet (tagSet (tagDelete f.TagSettings "AUTO_INCREMENT")
        "AUTO_INCREMENT" "AUTO_INCREMENT") "AUTO_INCREMENT" = some "AUTO_INCREMENT"
      rw [tagGet_tagSet, if_pos rfl]

/-- C10: `DataTypeOf` mutates at most the AUTO_INCREMENT entry of the
field's tag-settings mapping, deleting it or setting it to
`AUTO_INCREMENT`; every other tag setting and every other field attribute
(name, type name, kind, primary-key flag, size, explicit type, additional
type) is unchanged by the call. -/
theorem dataTypeOf_frame (f : StructField) :
    ((DataTypeOf f).2.Name = f.Name ∧ (DataTypeOf f).2.TypeName = f.TypeName ∧
     (DataTypeOf f).2.Kind = f.Kind ∧ (DataTypeOf f).2.IsPrimaryKey = f.IsPrimaryKey ∧
     (DataTypeOf f).2.Size = f.Size ∧ (DataTypeOf f).2.SqlTypeOverride = f.SqlTypeOverride ∧
     (DataTypeOf f).2.AdditionalType = f.AdditionalType) ∧
    (∀ k, ¬k = "AUTO_INCREMENT" →
      tagGet (DataTypeOf f).2.TagSettings k = tagGet f.TagSettings k) ∧
    (tagGet (DataTypeOf f).2.TagSettings "AUTO_INCREMENT" =
        tagGet f.TagSettings "AUTO_INCREMENT" ∨
     tagGet (DataTypeOf f).2.TagSettings "AUTO_INCREMENT" = none ∨
     tagGet (DataTypeOf f).2.TagSettings "AUTO_INCREMENT" = some "AUTO_INCREMENT") := by
  apply frame_candidates
  rw [dataTypeOf_snd]
  split_ifs
  · exact inferSqlType_snd (stripAutoIncrement f)
  · exact Or.inl rfl

/-- Witness for C10 at a concrete primary-key integer field carrying a
NOT NULL tag setting. -/
theorem dataTypeOf_frame_witness :
    tagGet (DataTypeOf w10field).2.TagSettings "NOT NULL" =
      tagGet w10field.TagSettings "NOT NULL" ∧
    (DataTypeOf w10field).2.Name = w10field.Name :=
  ⟨(dataTypeOf_frame w10field).2.1 "NOT NULL" (by decide),
   (dataTypeOf_frame w10field).1.1⟩

/-- C5: `DataTypeOf` fails fatally exactly when neither an explicit SQL
type was given nor the kind switch produced a type string; the fatal
message contains the offending field's name; in every other case the call
returns normally with some type string. -/
theorem dataTypeOf_fatal_iff (f : StructField) :
    ((∃ m, (DataTypeOf f).1 = DMResult.panic m) ↔
      (f.SqlTypeOverride = "" ∧ (inferSqlType (stripAutoIncrement f)).1 = "")) ∧
    (∀ m, (DataTypeOf f).1 = DMResult.panic m → strContains m f.Name = true) ∧
    (¬(f.SqlTypeOverride = "" ∧ (inferSqlType (stripAutoIncrement f)).1 = "") →
      ∃ s, (DataTypeOf f).1 = DMResult.ok s) := by
  by_cases hexp : f.SqlTypeOverride = ""
  · rw [dataTypeOf_fst_eq f hexp]
    by_cases hinf : (inferSqlType (stripAutoIncrement f)).1 = ""
    · rw [if_pos hinf]
      refine ⟨⟨fun _ => ⟨hexp, hinf⟩, fun _ => ⟨_, rfl⟩⟩, ?_,
        fun hcon => absurd ⟨hexp, hinf⟩ hcon⟩
      intro m hm
      rw [← DMResult.panic.inj hm]
      exact strContains_of_decomp _ _
        ("invalid sql type " ++ f.TypeName ++ " (" ++ kindName f.Kind ++ ") in field ").toList
        (" for dmsql").toList
        (by simp [strToList_append, List.append_assoc])
    · rw [if_neg hinf]
      refine ⟨⟨?_, fun h => absurd h.2 hinf⟩, ?_, fun _ => ?_⟩
      · rintro ⟨m, hm⟩
        split_ifs at hm
      · intro m hm
        split_ifs at hm
      · split_ifs <;> exact ⟨_, rfl⟩
  · rw [dataTypeOf_fst_override f hexp]
    refine ⟨⟨?_, fun h => absurd h.1 hexp⟩, ?_, fun _ => ?_⟩
    · rintro ⟨m, hm⟩
      split_ifs at hm
    · intro m hm
      split_ifs at hm
    · split_ifs <;> exact ⟨_, rfl⟩

/-- Witness for C5 at a concrete field of an uncovered kind with no
explicit type: the call fails fatally and the message names the field. -/
theorem dataTypeOf_fatal_witness :
    (∃ m, (DataTypeOf w5field).1 = DMResult.panic m) ∧
    strContains "invalid sql type chan int (invalid) in field payload for dmsql"
      w5field.Name = true :=
  ⟨(dataTypeOf_fatal_iff w5field).1.mpr ⟨rfl, rfl⟩,
   (dataTypeOf_fatal_iff w5field).2.1
     "invalid sql type chan int (invalid) in field payload for dmsql" (by decide)⟩

/-- C4: `LimitAndOffsetSQL` returns the empty fragment for an absent limit;
propagates the parse error of a non-integer limit, and of a non-integer
offset once a non-negative limit was parsed; emits ` LIMIT n` for a parsed
limit `n ≥ 0`, appending ` OFFSET m` exactly when the offset is present
with parsed value `m ≥ 0`; and silently emits no fragment for a negative
limit or a negative offset — in particular limit 10 and offset 5 give
` LIMIT 10 OFFSET 5` while limit -1 gives the empty string. -/
theorem limitAndOffsetSQL_spec :
    (∀ off, LimitAndOffsetSQL none off = Except.ok "") ∧
    (∀ s off, LimitAndOffsetSQL (some (IfaceVal.nonInt s)) off =
      Except.error ("parsing " ++ s ++ ": invalid syntax")) ∧
    (∀ n s, 0 ≤ n →
      LimitAndOffsetSQL (some (IfaceVal.intVal n)) (some (IfaceVal.nonInt s)) =
        Except.error ("parsing " ++ s ++ ": invalid syntax")) ∧
    (∀ n, 0 ≤ n → LimitAndOffsetSQL (some (IfaceVal.intVal n)) none =
      Except.ok (" LIMIT " ++ toString n)) ∧
    (∀ n m, 0 ≤ n → 0 ≤ m →
      LimitAndOffsetSQL (some (IfaceVal.intVal n)) (some (IfaceVal.intVal m)) =
        Except.ok (" LIMIT " ++ toString n ++ " OFFSET " ++ toString m)) ∧
    (∀ n off, n < 0 → LimitAndOffsetSQL (some (IfaceVal.intVal n)) off = Except.ok "") ∧
    (∀ n m, 0 ≤ n → m < 0 →
      LimitAndOffsetSQL (some (IfaceVal.intVal n)) (some (IfaceVal.intVal m)) =
        Except.ok (" LIMIT " ++ toString n)) ∧
    LimitAndOffsetSQL (some (IfaceVal.intVal 10)) (some (IfaceVal.intVal 5)) =
      Except.ok " LIMIT 10 OFFSET 5" := by
  refine ⟨fun off => rfl, fun s off => rfl, ?_, ?_, ?_, ?_, ?_, ?_⟩
  · intro n s hn
    simp [LimitAndOffsetSQL, parseInt, hn]
  · intro n hn
    simp [LimitAndOffsetSQL, parseInt, hn]
  · intro n m hn hm
    simp [LimitAndOffsetSQL, parseInt, hn, hm]
  · intro n off hn
    simp [LimitAndOffsetSQL, parseInt, if_neg (not_le.mpr hn), not_le.mpr hn]
  · intro n m hn hm
    simp [LimitAndOffsetSQL, parseInt, hn, if_neg (not_le.mpr hm), not_le.mpr hm]
  · rfl

/-- Witness for C4: the two concrete evaluations of the claim. -/
theorem limitAndOffsetSQL_witness :
    LimitAndOffsetSQL (some (IfaceVal.intVal 10)) (some (IfaceVal.intVal 5)) =
      Except.ok " LIMIT 10 OFFSET 5" ∧
    LimitAndOffsetSQL (some (IfaceVal.intVal (-1))) (some (IfaceVal.intVal 5)) =
      Except.ok "" :=
  ⟨limitAndOffsetSQL_spec.2.2.2.2.2.2.2,
   limitAndOffsetSQL_spec.2.2.2.2.2.1 (-1) (some (IfaceVal.intVal 5)) (by decide)⟩

theorem string_mk_toList (s : String) : String.mk s.toList = s := rfl

theorem notMem_strAppend {c : Char} {a b : String} (ha : c ∉ a.toList)
    (hb : c ∉ b.toList) : c ∉ (a ++ b).toList := by
  rw [strToList_append]
  intro h
  rcases List.mem_append.mp h with h | h
  · exact ha h
  · exact hb h

theorem strAppend_ne_empty (a b : String) (ha : ¬a.toList = []) : ¬(a ++ b) = "" := by
  intro he
  have hl := congrArg String.toList he
  rw [strToList_append] at hl
  exact ha (List.append_eq_nil.mp hl).1

theorem no_underscore_toString_int (i : Int) (h : 0 < i) : '_' ∉ (toString i).toList :=
  fun hmem => absurd (int_toString_digit i h '_' hmem) (by decide)

theorem strip_tagGet_ne (f : StructField) (k : String) (hk : ¬k = "AUTO_INCREMENT") :
    tagGet (stripAutoIncrement f).TagSettings k = tagGet f.TagSettings k := by
  rcases stripAutoIncrement_eq f with h | h <;> rw [h]
  show tagGet (tagDelete f.TagSettings "AUTO_INCREMENT") k = tagGet f.TagSettings k
  rw [tagGet_tagDelete, if_neg hk]

theorem inferSqlType_snd_of_not_canAI (g : StructField)
    (h : fieldCanAutoIncrement g = false) : (inferSqlType g).2 = g := by
  cases hk : g.Kind <;> simp only [inferSqlType, hk, h] <;>
    (try split_ifs) <;> simp_all

theorem no_underscore_infer (g : StructField) (hCan : fieldCanAutoIncrement g = false)
    (hprec : ∀ p, tagGet g.TagSettings "PRECISION" = some p → '_' ∉ p.toList) :
    '_' ∉ (inferSqlType g).1.toList := by
  cases hk : g.Kind
  case String =>
    simp only [inferSqlType, hk]
    split_ifs with hsz
    · exact notMem_strAppend
        (notMem_strAppend (by decide) (no_underscore_toString_int g.Size hsz.1))
        (by decide)
    · dsimp only; decide
  case ByteSlice =>
    simp only [inferSqlType, hk]
    split_ifs with hsz
    · exact notMem_strAppend
        (notMem_strAppend (by decide) (no_underscore_toString_int g.Size hsz.1))
        (by decide)
    · dsimp only; decide
  case StructTime =>
    simp only [inferSqlType, hk]
    rcases hp : tagGet g.TagSettings "PRECISION" with _ | p <;> simp only [hp]
    · split_ifs <;> (dsimp only; decide)
    · split_ifs
      · exact notMem_strAppend (by decide)
          (notMem_strAppend (notMem_strAppend (by decide) (hprec p hp)) (by decide))
      · exact notMem_strAppend
          (notMem_strAppend (by decide)
            (notMem_strAppend (notMem_strAppend (by decide) (hprec p hp)) (by decide)))
          (by decide)
  all_goals simp only [inferSqlType, hk, hCan, Bool.false_eq_true, if_false] <;> decide

/-- C1 (amended): for every field that is neither the primary key nor
carries an INDEX tag setting, the AUTO_INCREMENT tag setting is absent
after `DataTypeOf` returns, even if the caller had set it before the call;
and provided additionally that the field has no explicit SQL type and that
neither its additional-type modifier nor its PRECISION tag value contains
an underscore, the returned string never contains AUTO_INCREMENT. -/
theorem dataTypeOf_no_autoinc (f : StructField)
    (hpk : f.IsPrimaryKey = false) (hidx : tagGet f.TagSettings "INDEX" = none) :
    tagGet (DataTypeOf f).2.TagSettings "AUTO_INCREMENT" = none ∧
    (f.SqlTypeOverride = "" → '_' ∉ f.AdditionalType.toList →
      (∀ p, tagGet f.TagSettings "PRECISION" = some p → '_' ∉ p.toList) →
      ∀ s, (DataTypeOf f).1 = DMResult.ok s → strContains s "AUTO_INCREMENT" = false) := by
  have hCan := canAI_strip_false f hpk hidx
  constructor
  · rw [dataTypeOf_snd]
    split_ifs with hexp
    · rw [inferSqlType_snd_of_not_canAI _ hCan]
      exact strip_ai_none f hpk hidx
    · exact strip_ai_none f hpk hidx
  · intro hexp hadd hprec s hs
    have hprec2 : ∀ p, tagGet (stripAutoIncrement f).TagSettings "PRECISION" = some p →
        '_' ∉ p.toList := by
      intro p hp
      rw [strip_tagGet_ne f "PRECISION" (by decide)] at hp
      exact hprec p hp
    have hinf := no_underscore_infer (stripAutoIncrement f) hCan hprec2
    rw [dataTypeOf_fst_eq f hexp] at hs
    split_ifs at hs with h1 h2
    · rw [← DMResult.ok.inj hs]
      exact strContains_eq_false _ _ '_' (by decide) hinf
    · rw [← DMResult.ok.inj hs]
      exact strContains_eq_false _ _ '_' (by decide)
        (notMem_strAppend (notMem_strAppend hinf (by decide)) hadd)

/-- Counterexample to C1 as stated: a field that is neither primary key
nor indexed but carries the explicit SQL type `AUTO_INCREMENT`;
`DataTypeOf` returns that string verbatim. -/
theorem dataTypeOf_no_autoinc_cex :
    c1field.IsPrimaryKey = false ∧ tagGet c1field.TagSettings "INDEX" = none ∧
    (DataTypeOf c1field).1 = DMResult.ok "AUTO_INCREMENT" ∧
    strContains "AUTO_INCREMENT" "AUTO_INCREMENT" = true :=
  ⟨rfl, rfl, by decide, by decide⟩

/-- Witness for C1 (amended) at a concrete non-key, non-indexed integer
field that had requested AUTO_INCREMENT before the call. -/
theorem dataTypeOf_no_autoinc_witness :
    tagGet (DataTypeOf w1field).2.TagSettings "AUTO_INCREMENT" = none ∧
    strContains "int" "AUTO_INCREMENT" = false :=
  ⟨(dataTypeOf_no_autoinc w1field rfl (by decide)).1,
   (dataTypeOf_no_autoinc w1field rfl (by decide)).2 rfl (by decide)
     (fun p hp => by simp [w1field, tagGet] at hp) "int" (by decide)⟩

theorem inferSqlType_of_canAI (g : StructField) (h : fieldCanAutoIncrement g = true)
    (hk : isIntegerKind g.Kind = true) :
    ∃ base, inferSqlType g = (base, setAutoIncrement g) ∧
      strEndsWith base "AUTO_INCREMENT" = true ∧ ¬base = "" := by
  cases hkk : g.Kind
  case Int8 => exact ⟨"tinyint AUTO_INCREMENT",
    by simp [inferSqlType, hkk, h], by decide, by decide⟩
  case Int => exact ⟨"int AUTO_INCREMENT",
    by simp [inferSqlType, hkk, h], by decide, by decide⟩
  case Int16 => exact ⟨"int AUTO_INCREMENT",
    by simp [inferSqlType, hkk, h], by decide, by decide⟩
  case Int32 => exact ⟨"int AUTO_INCREMENT",
    by simp [inferSqlType, hkk, h], by decide, by decide⟩
  case Uint8 => exact ⟨"tinyint unsigned AUTO_INCREMENT",
    by simp [inferSqlType, hkk, h], by decide, by decide⟩
  case Uint => exact ⟨"int unsigned AUTO_INCREMENT",
    by simp [inferSqlType, hkk, h], by decide, by decide⟩
  case Uint16 => exact ⟨"int unsigned AUTO_INCREMENT",
    by simp [inferSqlType, hkk, h], by decide, by decide⟩
  case Uint32 => exact ⟨"int unsigned AUTO_INCREMENT",
    by simp [inferSqlType, hkk, h], by decide, by decide⟩
  case Uintptr => exact ⟨"int unsigned AUTO_INCREMENT",
    by simp [inferSqlType, hkk, h], by decide, by decide⟩
  case Int64 => exact ⟨"bigint AUTO_INCREMENT",
    by simp [inferSqlType, hkk, h], by decide, by decide⟩
  case Uint64 => exact ⟨"bigint unsigned AUTO_INCREMENT",
    by simp [inferSqlType, hkk, h], by decide, by decide⟩
  all_goals simp [isIntegerKind, hkk] at hk

/-- C2 (amended): for every field with no explicit SQL type, whose
additional-type modifier is empty after trimming, whose runtime kind is a
signed or unsigned integer kind, and which qualifies for auto-increment
under the base dialect's eligibility rule as consulted after the
AUTO_INCREMENT-stripping step, `DataTypeOf` returns a type string ending
in AUTO_INCREMENT and sets the field's AUTO_INCREMENT tag setting. -/
theorem dataTypeOf_autoinc (f : StructField)
    (hk : isIntegerKind f.Kind = true)
    (hexp : f.SqlTypeOverride = "")
    (hadd : trimSpace f.AdditionalType = "")
    (helig : fieldCanAutoIncrement (stripAutoIncrement f) = true) :
    (∃ s, (DataTypeOf f).1 = DMResult.ok s ∧ strEndsWith s "AUTO_INCREMENT" = true) ∧
    tagGet (DataTypeOf f).2.TagSettings "AUTO_INCREMENT" = some "AUTO_INCREMENT" := by
  obtain ⟨base, hinf, hend, hne⟩ := inferSqlType_of_canAI (stripAutoIncrement f) helig
    (by rw [strip_kind f]; exact hk)
  constructor
  · refine ⟨base, ?_, hend⟩
    rw [dataTypeOf_fst_eq f hexp, hinf]
    dsimp only
    rw [if_neg hne, if_pos hadd]
  · rw [dataTypeOf_snd, if_pos hexp, hinf]
    show tagGet (tagSet (stripAutoIncrement f).TagSettings
      "AUTO_INCREMENT" "AUTO_INCREMENT") "AUTO_INCREMENT" = some "AUTO_INCREMENT"
    rw [tagGet_tagSet, if_pos rfl]

/-- Counterexample to C2 as stated: `c2field` has integer kind, no explicit
SQL type, and qualifies for auto-increment before the call (its
AUTO_INCREMENT tag is set and not `false`), yet `DataTypeOf` strips the tag
first, returns `int NOT NULL` — which does not end in AUTO_INCREMENT — and
leaves the tag unset. -/
theorem dataTypeOf_autoinc_cex :
    fieldCanAutoIncrement c2field = true ∧ isIntegerKind c2field.Kind = true ∧
    c2field.SqlTypeOverride = "" ∧
    (DataTypeOf c2field).1 = DMResult.ok "int NOT NULL" ∧
    strEndsWith "int NOT NULL" "AUTO_INCREMENT" = false ∧
    tagGet (DataTypeOf c2field).2.TagSettings "AUTO_INCREMENT" = none :=
  ⟨by decide, by decide, rfl, by decide, by decide, by decide⟩

/-- Witness for C2 (amended) at a concrete primary-key `uint` field. -/
theorem dataTypeOf_autoinc_witness :
    (∃ s, (DataTypeOf w2field).1 = DMResult.ok s ∧
      strEndsWith s "AUTO_INCREMENT" = true) ∧
    tagGet (DataTypeOf w2field).2.TagSettings "AUTO_INCREMENT" =
      some "AUTO_INCREMENT" :=
  dataTypeOf_autoinc w2field (by decide) rfl (by decide) (by decide)

/-- C3 (amended): for every field with no explicit SQL type, whose
additional-type modifier is empty after trimming, and whose runtime kind is
string, `DataTypeOf` returns `varchar(<size>)` exactly when
`0 < size < 65532` and `longtext` otherwise (in particular for size 0 and
for sizes of at least 65532). -/
theorem dataTypeOf_string (f : StructField)
    (hk : f.Kind = Kind.String)
    (hexp : f.SqlTypeOverride = "")
    (hadd : trimSpace f.AdditionalType = "") :
    (0 < f.Size ∧ f.Size < 65532 →
      (DataTypeOf f).1 = DMResult.ok ("varchar(" ++ toString f.Size ++ ")")) ∧
    (¬(0 < f.Size ∧ f.Size < 65532) → (DataTypeOf f).1 = DMResult.ok "longtext") := by
  have hgk : (stripAutoIncrement f).Kind = Kind.String := (strip_kind f).trans hk
  have hgs : (stripAutoIncrement f).Size = f.Size := strip_size f
  rw [dataTypeOf_fst_eq f hexp]
  constructor
  · intro hsz
    have hv : inferSqlType (stripAutoIncrement f) =
        ("varchar(" ++ toString f.Size ++ ")", stripAutoIncrement f) := by
      simp [inferSqlType, hgk, hgs, hsz.1, hsz.2]
    rw [hv]
    dsimp only
    rw [if_neg (strAppend_ne_empty _ _ (by simp [strToList_append])), if_pos hadd]
  · intro hsz
    have hv : inferSqlType (stripAutoIncrement f) = ("longtext", stripAutoIncrement f) := by
      simp only [inferSqlType, hgk, hgs]
      rw [if_neg hsz]
    rw [hv]
    dsimp only
    rw [if_neg (by decide), if_pos hadd]

/-- Counterexample to C3 as stated: a string field of size 100 with a
NOT NULL additional-type modifier; `DataTypeOf` returns
`varchar(100) NOT NULL`, which is neither `varchar(100)` nor `longtext`. -/
theorem dataTypeOf_string_cex :
    c3field.Kind = Kind.String ∧ c3field.SqlTypeOverride = "" ∧ c3field.Size = 100 ∧
    (DataTypeOf c3field).1 = DMResult.ok "varchar(100) NOT NULL" ∧
    ¬(DataTypeOf c3field).1 = DMResult.ok "varchar(100)" ∧
    ¬(DataTypeOf c3field).1 = DMResult.ok "longtext" :=
  ⟨rfl, rfl, rfl, by decide, by decide, by decide⟩

/-- Witness for C3 (amended): both branches at concrete string fields. -/
theorem dataTypeOf_string_witness :
    (DataTypeOf w3field).1 = DMResult.ok ("varchar(" ++ toString (100 : Int) ++ ")") :=
  (dataTypeOf_string w3field rfl rfl (by decide)).1 (by decide)

theorem string_mk_length (l : List Char) : (String.mk l).length = l.length := rfl

theorem bytesToHexAux_length (bs : List Nat) :
    (bytesToHexAux bs).length = 2 * bs.length := by
  induction bs with
  | nil => rfl
  | cons b bs ih =>
    simp only [bytesToHexAux, List.length_cons, ih]
    omega

theorem sha1Bytes_length (s : String) : (sha1Bytes s).length = 20 := by
  rcases hw : sha1Words s with ⟨a, b, c, d, e⟩
  simp [sha1Bytes, hw, beBytes]

theorem bytesToHex_length (bs : List Nat) : (bytesToHex bs).length = 2 * bs.length :=
  bytesToHexAux_length bs

/-- C6: for every kind, table name and nonempty field list, if the name
produced by the base dialect's naming rule has at most 64 characters
(Unicode code points), the adapter's `BuildKeyName` returns it unchanged;
otherwise it returns the first 24 sanitized characters of the first field
name followed by the 40-character hexadecimal SHA-1 digest of the full
name, a result of at most 64 characters (and, being a pure function of its
inputs, deterministic across repeated calls). -/
theorem buildKeyName_spec (kind tableName f0 : String) (rest : List String) :
    ((commonBuildKeyName kind tableName (f0 :: rest)).length ≤ 64 →
      BuildKeyName kind tableName (f0 :: rest) =
        some (commonBuildKeyName kind tableName (f0 :: rest))) ∧
    (64 < (commonBuildKeyName kind tableName (f0 :: rest)).length →
      BuildKeyName kind tableName (f0 :: rest) =
        some (String.mk ((replaceRuns f0).toList.take 24) ++
          bytesToHex (sha1Bytes (commonBuildKeyName kind tableName (f0 :: rest)))) ∧
      (bytesToHex (sha1Bytes (commonBuildKeyName kind tableName (f0 :: rest)))).length = 40 ∧
      (String.mk ((replaceRuns f0).toList.take 24) ++
        bytesToHex (sha1Bytes (commonBuildKeyName kind tableName (f0 :: rest)))).length ≤ 64) := by
  constructor
  · intro h
    simp only [BuildKeyName]
    rw [if_pos h]
  · intro h
    have hhex : (bytesToHex (sha1Bytes (commonBuildKeyName kind tableName (f0 :: rest)))).length = 40 := by
      rw [bytesToHex_length, sha1Bytes_length]
    refine ⟨?_, hhex, ?_⟩
    · simp only [BuildKeyName]
      rw [if_neg (not_le.mpr h)]
      by_cases h24 : 24 < (replaceRuns f0).toList.length
      · rw [if_pos h24]
      · rw [if_neg h24, List.take_of_length_le (by omega)]
    · rw [String.length_append, string_mk_length, hhex]
      have := List.length_take 24 (replaceRuns f0).toList
      omega

/-- Witness for C6: the shortening branch at a concrete 74-character base
name with first field name `user_name`. -/
theorem buildKeyName_witness :
    BuildKeyName "idx" "tttttttttttttttttttttttttttttttttttttttttttttttttttttttttttttttttttttt" ["user_name"] =
      some (String.mk ((replaceRuns "user_name").toList.take 24) ++
        bytesToHex (sha1Bytes (commonBuildKeyName "idx" "tttttttttttttttttttttttttttttttttttttttttttttttttttttttttttttttttttttt" ["user_name"]))) ∧
    (String.mk ((replaceRuns "user_name").toList.take 24) ++
      bytesToHex (sha1Bytes (commonBuildKeyName "idx" "tttttttttttttttttttttttttttttttttttttttttttttttttttttttttttttttttttttt" ["user_name"]))).length ≤ 64 := by
  have h := (buildKeyName_spec "idx" "tttttttttttttttttttttttttttttttttttttttttttttttttttttttttttttttttttttt" "user_name" []).2 (by decide)
  exact ⟨h.1, h.2.2⟩

/-- C8: `HasForeignKey`, `HasTable`, `HasIndex` and `HasColumn` each return
true exactly when the count produced by the underlying catalog query is
strictly positive; when the underlying query or scan fails, the error is
swallowed, the count keeps its zero value, and the method returns false. -/
theorem hasChecks_spec (db : DB) (tableName name2 : String) :
    ((∀ c, db.queryCount
        "SELECT count(*) FROM USER_CONSTRAINTS WHERE TABLE_NAME=? AND CONSTRAINT_NAME=? AND CONSTRAINT_TYPE='R'"
        [(currentDatabaseAndTable tableName).2, name2] = Except.ok c →
        (HasForeignKey db tableName name2 = true ↔ 0 < c)) ∧
     (∀ e, db.queryCount
        "SELECT count(*) FROM USER_CONSTRAINTS WHERE TABLE_NAME=? AND CONSTRAINT_NAME=? AND CONSTRAINT_TYPE='R'"
        [(currentDatabaseAndTable tableName).2, name2] = Except.error e →
        HasForeignKey db tableName name2 = false)) ∧
    ((∀ c, db.queryCount
        ("SELECT count(*) FROM USER_TABLES WHERE TABLESPACE = `" ++
          (currentDatabaseAndTable tableName).1 ++ "` AND TABLE_NAME = `" ++
          (currentDatabaseAndTable tableName).2 ++ "` ") [] = Except.ok c →
        (HasTable db tableName = true ↔ 0 < c)) ∧
     (∀ e, db.queryCount
        ("SELECT count(*) FROM USER_TABLES WHERE TABLESPACE = `" ++
          (currentDatabaseAndTable tableName).1 ++ "` AND TABLE_NAME = `" ++
          (currentDatabaseAndTable tableName).2 ++ "` ") [] = Except.error e →
        HasTable db tableName = false)) ∧
    ((∀ c, db.queryCount
        ("SELECT count(*) FROM USER_INDEXS WHERE TABLESPACE = `" ++
          (currentDatabaseAndTable tableName).1 ++ "` AND TABLE_NAME = `" ++
          (currentDatabaseAndTable tableName).2 ++ "` AND INDEX_NAME = `" ++
          name2 ++ "` ") [] = Except.ok c →
        (HasIndex db tableName name2 = true ↔ 0 < c)) ∧
     (∀ e, db.queryCount
        ("SELECT count(*) FROM USER_INDEXS WHERE TABLESPACE = `" ++
          (currentDatabaseAndTable tableName).1 ++ "` AND TABLE_NAME = `" ++
          (currentDatabaseAndTable tableName).2 ++ "` AND INDEX_NAME = `" ++
          name2 ++ "` ") [] = Except.error e →
        HasIndex db tableName name2 = false)) ∧
    ((∀ c, db.queryCount
        ("SELECT count(*) FROM USER_TAB_COLUMNS WHERE TABLE_NAME = `" ++
          (currentDatabaseAndTable tableName).2 ++ "` AND COLUMN_NAME =`" ++
          name2 ++ "` ") [] = Except.ok c →
        (HasColumn db tableName name2 = true ↔ 0 < c)) ∧
     (∀ e, db.queryCount
        ("SELECT count(*) FROM USER_TAB_COLUMNS WHERE TABLE_NAME = `" ++
          (currentDatabaseAndTable tableName).2 ++ "` AND COLUMN_NAME =`" ++
          name2 ++ "` ") [] = Except.error e →
        HasColumn db tableName name2 = false)) := by
  refine ⟨⟨?_, ?_⟩, ⟨?_, ?_⟩, ⟨?_, ?_⟩, ⟨?_, ?_⟩⟩ <;> intro c h
  · simp [HasForeignKey, scanCount, h]
  · simp [HasForeignKey, scanCount, h]
  · simp [HasTable, scanCount, h]
  · simp [HasTable, scanCount, h]
  · simp [HasIndex, scanCount, h]
  · simp [HasIndex, scanCount, h]
  · simp [HasColumn, scanCount, h]
  · simp [HasColumn, scanCount, h]

/-- Witness for C8: a handle whose queries yield count 3 against one whose
queries all fail. -/
theorem hasChecks_witness :
    HasForeignKey w8dbOk "users" "fk_users_addr" = true ∧
    HasForeignKey w8dbErr "users" "fk_users_addr" = false ∧
    HasTable w8dbOk "users" = true ∧ HasTable w8dbErr "users" = false ∧
    HasIndex w8dbOk "users" "idx_users_a" = true ∧
    HasIndex w8dbErr "users" "idx_users_a" = false ∧
    HasColumn w8dbOk "users" "a" = true ∧ HasColumn w8dbErr "users" "a" = false :=
  ⟨((hasChecks_spec w8dbOk "users" "fk_users_addr").1.1 3 rfl).mpr (by decide),
   (hasChecks_spec w8dbErr "users" "fk_users_addr").1.2 "ORA-00942" rfl,
   ((hasChecks_spec w8dbOk "users" "fk_users_addr").2.1.1 3 rfl).mpr (by decide),
   (hasChecks_spec w8dbErr "users" "fk_users_addr").2.1.2 "ORA-00942" rfl,
   ((hasChecks_spec w8dbOk "users" "idx_users_a").2.2.1.1 3 rfl).mpr (by decide),
   (hasChecks_spec w8dbErr "users" "idx_users_a").2.2.1.2 "ORA-00942" rfl,
   ((hasChecks_spec w8dbOk "users" "a").2.2.2.1 3 rfl).mpr (by decide),
   (hasChecks_spec w8dbErr "users" "a").2.2.2.2 "ORA-00942" rfl⟩

/-- C9: with an empty field list and a base name longer than 64
characters, the shortening branch's `fields[0]` access is out of bounds
and the call panics (modelled as `none`): the shortening behaviour is only
defined when at least one field name is supplied. -/
theorem buildKeyName_empty_fields (kind tableName : String)
    (h : 64 < (commonBuildKeyName kind tableName []).length) :
    BuildKeyName kind tableName [] = none := by
  simp only [BuildKeyName]
  rw [if_neg (not_le.mpr h)]

theorem string_ext (a b : String) (h : a.toList = b.toList) : a = b := by
  cases a; cases b; exact congrArg String.mk h

theorem string_mk_eq_empty (l : List Char) (h : String.mk l = "") : l = [] :=
  congrArg String.toList h

theorem toList_ne_nil (s : String) (h : ¬s = "") : ¬s.toList = [] :=
  fun hl => h (string_ext s "" hl)

theorem takeWhile_all_append (q : Char → Bool) (xs : List Char) (y : Char)
    (ys : List Char) (hxs : ∀ x ∈ xs, q x = true) (hy : q y = false) :
    (xs ++ y :: ys).takeWhile q = xs ∧ (xs ++ y :: ys).dropWhile q = y :: ys := by
  induction xs with
  | nil => simp [List.takeWhile_cons, List.dropWhile_cons, hy]
  | cons a as ih =>
    have ha : q a = true := hxs a (by simp)
    have ih2 := ih (fun x hx => hxs x (by simp [hx]))
    simp [List.takeWhile_cons, List.dropWhile_cons, ha, ih2.1, ih2.2]

theorem dmsqlIndexMatch_decomp (stem digits : String) (hp : ¬stem = "")
    (hds : ¬digits = "") (hdig : ∀ c ∈ digits.toList, c.isDigit = true) :
    dmsqlIndexMatch (stem ++ "(" ++ digits ++ ")") =
      some (stem.toList, digits.toList) := by
  have hrev : (stem ++ "(" ++ digits ++ ")").toList.reverse =
      ')' :: (digits.toList.reverse ++ '(' :: stem.toList.reverse) := by
    have h1 : ("(" : String).toList = ['('] := rfl
    have h2 : (")" : String).toList = [')'] := rfl
    simp [strToList_append, h1, h2, List.reverse_append]
  obtain ⟨htw, hdw⟩ := takeWhile_all_append Char.isDigit digits.toList.reverse '('
    stem.toList.reverse (fun x hx => hdig x (List.mem_reverse.mp hx)) (by decide)
  have hne1 : ¬digits.toList.reverse = [] := by
    rw [List.reverse_eq_nil_iff]
    exact toList_ne_nil digits hds
  have hne2 : ¬stem.toList.reverse = [] := by
    rw [List.reverse_eq_nil_iff]
    exact toList_ne_nil stem hp
  unfold dmsqlIndexMatch
  simp only [hrev, List.head?_cons, List.tail_cons, htw, hdw, List.reverse_reverse]
  simp [hne1, hne2]
  exact ⟨toList_ne_nil digits hds, toList_ne_nil stem hp⟩

theorem dmsqlIndexMatch_sound (s : String) (pre dig : List Char)
    (h : dmsqlIndexMatch s = some (pre, dig)) :
    s.toList = pre ++ '(' :: dig ++ [')'] ∧ ¬pre = [] ∧ ¬dig = [] ∧
      (∀ c ∈ dig, c.isDigit = true) := by
  unfold dmsqlIndexMatch at h
  split_ifs at h with hcond
  obtain ⟨hhead, hne1, hhead2, hne2⟩ := hcond
  simp only [Option.some.injEq, Prod.mk.injEq] at h
  obtain ⟨hpre, hdig2⟩ := h
  rcases hrev : s.toList.reverse with _ | ⟨c, rest⟩
  · rw [hrev] at hhead; exact absurd hhead (by simp)
  rw [hrev] at hhead hne1 hhead2 hne2 hpre hdig2
  simp only [List.head?_cons, Option.some.injEq] at hhead
  simp only [List.tail_cons] at hne1 hhead2 hne2 hpre hdig2
  rcases hdw : rest.dropWhile Char.isDigit with _ | ⟨c2, stemRev⟩
  · rw [hdw] at hhead2; exact absurd hhead2 (by simp)
  rw [hdw] at hhead2 hne2 hpre
  simp only [List.head?_cons, Option.some.injEq] at hhead2
  simp only [List.tail_cons] at hne2 hpre
  have hrest : rest.takeWhile Char.isDigit ++ rest.dropWhile Char.isDigit = rest :=
    List.takeWhile_append_dropWhile Char.isDigit rest
  rw [hdw] at hrest
  refine ⟨?_, ?_, ?_, ?_⟩
  · have hs : s.toList = (c :: rest).reverse := by rw [← hrev, List.reverse_reverse]
    rw [hs, ← hrest, ← hpre, ← hdig2, hhead, hhead2]
    simp [List.reverse_append, List.append_assoc]
  · rw [← hpre]
    simp only [ne_eq, List.reverse_eq_nil_iff]
    exact hne2
  · rw [← hdig2]
    simp only [ne_eq, List.reverse_eq_nil_iff]
    exact hne1
  · intro ch hch
    rw [← hdig2] at hch
    exact List.mem_takeWhile_imp (List.mem_reverse.mp hch)

/-- C7: if the index name matches the pattern `stem(digits)` — nonempty
stem, nonempty all-digit group — `NormalizeIndexAndColumn` returns the
bare stem as the index name and `column(digits)` as the column expression;
otherwise it returns both inputs unchanged.  In particular
`("idx_name(10)", "col")` maps to `("idx_name", "col(10)")` and
`("idx_name", "col")` is unchanged. -/
theorem normalizeIndexAndColumn_spec :
    (∀ stem digits col : String, ¬stem = "" → ¬digits = "" →
      (∀ c ∈ digits.toList, c.isDigit = true) →
      NormalizeIndexAndColumn (stem ++ "(" ++ digits ++ ")") col =
        (stem, col ++ "(" ++ digits ++ ")")) ∧
    (∀ idx col : String,
      (¬∃ stem digits : String, ¬stem = "" ∧ ¬digits = "" ∧
        (∀ c ∈ digits.toList, c.isDigit = true) ∧
        idx = stem ++ "(" ++ digits ++ ")") →
      NormalizeIndexAndColumn idx col = (idx, col)) ∧
    NormalizeIndexAndColumn "idx_name(10)" "col" = ("idx_name", "col(10)") ∧
    NormalizeIndexAndColumn "idx_name" "col" = ("idx_name", "col") := by
  refine ⟨?_, ?_, by decide, by decide⟩
  · intro stem digits col hp hds hdig
    unfold NormalizeIndexAndColumn
    rw [dmsqlIndexMatch_decomp stem digits hp hds hdig]
    simp only [string_mk_toList]
  · intro idx col hno
    rcases hm : dmsqlIndexMatch idx with _ | ⟨pre, dig⟩
    · unfold NormalizeIndexAndColumn
      rw [hm]
    · exfalso
      obtain ⟨hlist, hpre, hdig, hall⟩ := dmsqlIndexMatch_sound idx pre dig hm
      refine hno ⟨String.mk pre, String.mk dig, ?_, ?_, ?_, ?_⟩
      · exact fun hh => hpre (string_mk_eq_empty pre hh)
      · exact fun hh => hdig (string_mk_eq_empty dig hh)
      · exact hall
      · apply string_ext
        rw [hlist]
        have h1 : ("(" : String).toList = ['('] := rfl
        have h2 : (")" : String).toList = [')'] := rfl
        simp [strToList_append, h1, h2]

/-- Witness for C7: the splitting branch applied at a concrete index name
with prefix length 16. -/
theorem normalizeIndexAndColumn_witness :
    NormalizeIndexAndColumn ("idx_col" ++ "(" ++ "16" ++ ")") "addr" =
      ("idx_col", "addr" ++ "(" ++ "16" ++ ")") :=
  normalizeIndexAndColumn_spec.1 "idx_col" "16" "addr" (by decide) (by decide) (by decide)

/-- Witness for C9 at a concrete overlong table name and no fields. -/
theorem buildKeyName_empty_fields_witness :
    64 < (commonBuildKeyName "idx" "uuuuuuuuuuuuuuuuuuuuuuuuuuuuuuuuuuuuuuuuuuuuuuuuuuuuuuuuuuuuuuuuuuuuuu" []).length ∧
    BuildKeyName "idx" "uuuuuuuuuuuuuuuuuuuuuuuuuuuuuuuuuuuuuuuuuuuuuuuuuuuuuuuuuuuuuuuuuuuuuu" [] = none :=
  ⟨by decide, buildKeyName_empty_fields "idx" "uuuuuuuuuuuuuuuuuuuuuuuuuuuuuuuuuuuuuuuuuuuuuuuuuuuuuuuuuuuuuuuuuuuuuu" (by decide)⟩

end Dmsql
